import Mathlib

/-!
# Edulab — verification of the specified behaviour

A shallow embedding of the Edulab client-side modules
(`content-filter.js`, `phet-integration.js`, `data-manager.js`,
`completion-tracker.js`, `sw.js`, `teacher-auth.js`,
`simulation-manager.js`) together with proofs settling the behavioural
claims made by the specification.

JavaScript strings are embedded as Lean `String`; all string scanning is
performed on the underlying character list so every definition reduces in
the kernel.  Machine-level timestamps are embedded as `Int` (JavaScript
integral doubles in the relevant range are exact).  JSON values are
embedded by the inductive `JSValue`; `undefined` is represented by
`Option.none` at property-lookup sites.
-/

namespace Edulab

/-! ## JavaScript string primitives

`String.prototype.includes`, `endsWith` and `toLowerCase` modelled on the
character list of the string. -/

/-- `sub.isPrefixOf hay`-style infix test on character lists:
true iff `sub` occurs contiguously inside `hay`. -/
def listHasInfix : List Char → List Char → Bool
  | [], sub => sub.isEmpty
  | h :: t, sub => sub.isPrefixOf (h :: t) || listHasInfix t sub

/-- JavaScript `hay.includes(sub)`. -/
def jsIncludes (hay sub : String) : Bool :=
  sub.data.isEmpty || listHasInfix hay.data sub.data

/-- JavaScript `s.endsWith(t)`. -/
def jsEndsWith (s t : String) : Bool :=
  t.data.isSuffixOf s.data

/-- JavaScript `s.toLowerCase()` (ASCII case mapping suffices for the
repository's data). -/
def jsToLower (s : String) : String :=
  String.mk (s.data.map Char.toLower)

/-- JavaScript `s.startsWith(t)`. -/
def jsStartsWith (s t : String) : Bool :=
  t.data.isPrefixOf s.data

/-! ## The WHATWG URL constructor

`new URL(s)` is a host-platform API, not repository code.  For the plain
absolute `http(s)` URLs the repository deals in, it is modelled by
`parseUrl`: scheme, then host (up to `/`, `?`, `#`, with an optional
`:port` stripped from the hostname), then pathname (up to `?` or `#`,
defaulting to `/`).  `parseUrl` returns `none` exactly where `new URL`
would throw on this fragment of the URL grammar. -/

structure UrlObj where
  protocol : String
  hostname : String
  pathname : String
deriving DecidableEq

def hostStopChar (c : Char) : Bool :=
  c == '/' || c == '?' || c == '#'

def pathStopChar (c : Char) : Bool :=
  c == '?' || c == '#'

/-- Model of `new URL(s)` for absolute http/https URLs (no userinfo). -/
def parseUrl (s : String) : Option UrlObj :=
  let schemeSplit : Option (String × List Char) :=
    if jsStartsWith s "https://" then some ("https:", s.data.drop 8)
    else if jsStartsWith s "http://" then some ("http:", s.data.drop 7)
    else none
  match schemeSplit with
  | none => none
  | some (proto, rest) =>
    let hostport := rest.takeWhile (fun c => !hostStopChar c)
    let tail := rest.drop hostport.length
    let hostname := hostport.takeWhile (fun c => !(c == ':'))
    if hostname.isEmpty then none
    else
      let pathname :=
        match tail with
        | '/' :: _ => tail.takeWhile (fun c => !pathStopChar c)
        | _ => ['/']
      some ⟨proto, String.mk hostname, String.mk pathname⟩

/-! ## Association-list embedding of JavaScript objects -/

/-- Property assignment `o[k] = v`: replace in place, else append. -/
def jsSetKey {α : Type} : List (String × α) → String → α → List (String × α)
  | [], k, v => [(k, v)]
  | (k', v') :: rest, k, v =>
    if k' == k then (k, v) :: rest else (k', v') :: jsSetKey rest k v

/-- `delete o[k]`. -/
def jsDelKey {α : Type} (l : List (String × α)) (k : String) : List (String × α) :=
  l.filter (fun p => p.1 ≠ k)

theorem jsSetKey_lookup_eq {α : Type} (l : List (String × α)) (k : String) (v : α) :
    (jsSetKey l k v).lookup k = some v := by
  induction l with
  | nil => simp [jsSetKey, List.lookup]
  | cons p rest ih =>
    by_cases h : p.1 = k
    · simp [jsSetKey, h, List.lookup]
    · have h1 : (p.1 == k) = false := beq_eq_false_iff_ne.mpr h
      have h2 : (k == p.1) = false := beq_eq_false_iff_ne.mpr (Ne.symm h)
      simp only [jsSetKey, h1, if_neg Bool.false_ne_true]
      simpa [List.lookup, h2] using ih

theorem jsSetKey_lookup_ne {α : Type} (l : List (String × α)) (k k' : String) (v : α)
    (h : k' ≠ k) : (jsSetKey l k v).lookup k' = l.lookup k' := by
  induction l with
  | nil => simp [jsSetKey, List.lookup, beq_eq_false_iff_ne.mpr h]
  | cons p rest ih =>
    by_cases hp : p.1 = k
    · have hk' : (k' == p.1) = false := beq_eq_false_iff_ne.mpr (hp ▸ h)
      simp [jsSetKey, hp, List.lookup, beq_eq_false_iff_ne.mpr h, hk']
    · have h1 : (p.1 == k) = false := beq_eq_false_iff_ne.mpr hp
      simp only [jsSetKey, h1, if_neg Bool.false_ne_true]
      by_cases hk' : k' = p.1
      · simp [List.lookup, hk']
      · have h2 : (k' == p.1) = false := beq_eq_false_iff_ne.mpr hk'
        simpa [List.lookup, h2] using ih

theorem jsSetKey_length_lookup_some {α : Type} (l : List (String × α)) (k : String) (v : α)
    (h : (l.lookup k).isSome) : (jsSetKey l k v).length = l.length := by
  induction l with
  | nil => simp [List.lookup] at h
  | cons p rest ih =>
    by_cases hp : p.1 = k
    · simp [jsSetKey, hp]
    · have h1 : (p.1 == k) = false := beq_eq_false_iff_ne.mpr hp
      have h2 : (k == p.1) = false := beq_eq_false_iff_ne.mpr (Ne.symm hp)
      simp only [List.lookup, h2] at h
      simp only [jsSetKey, h1, if_neg Bool.false_ne_true, List.length_cons]
      rw [ih (by simpa using h)]

theorem jsSetKey_length_lookup_none {α : Type} (l : List (String × α)) (k : String) (v : α)
    (h : l.lookup k = none) : (jsSetKey l k v).length = l.length + 1 := by
  induction l with
  | nil => simp [jsSetKey]
  | cons p rest ih =>
    by_cases hp : p.1 = k
    · simp [List.lookup, beq_iff_eq, hp] at h
    · have h1 : (p.1 == k) = false := beq_eq_false_iff_ne.mpr hp
      have h2 : (k == p.1) = false := beq_eq_false_iff_ne.mpr (Ne.symm hp)
      simp only [List.lookup, h2] at h
      simp only [jsSetKey, h1, if_neg Bool.false_ne_true, List.length_cons]
      rw [ih h]

/-! ## `content-filter.js` — `ContentFilter`

A simulation record, with the fields `applyFilters` and `matchesKeyword`
read (`content-filter.js`, lines 344–410).  `instructions` and
`vocabulary` are optional in the data, hence `Option`; the filter state
mirrors the constructor's `currentFilters` (`subject`/`gradeLevel`/
`difficulty` are string-or-null, `tags` an array, `keyword` a string
initialised to `''`). -/

structure Simulation where
  title : String
  description : String
  subject : String
  gradeLevel : String
  difficulty : String
  tags : List String
  topics : List String
  learningObjectives : List String
  instructions : Option String
  vocabulary : Option (List (String × String))
deriving DecidableEq

structure FilterState where
  subject : Option String
  gradeLevel : Option String
  difficulty : Option String
  tags : List String
  keyword : String
deriving DecidableEq

/-- `ContentFilter.matchesKeyword` (content-filter.js, lines 391–410):
the keyword argument arrives already lower-cased by `applyFilters`. -/
def matchesKeyword (sim : Simulation) (keyword : String) : Bool :=
  let searchFields :=
    [sim.title, sim.description] ++ sim.topics ++ sim.learningObjectives
      ++ [sim.instructions.getD ""]
      ++ (match sim.vocabulary with
          | some vs => vs.foldr (fun v acc => v.1 :: v.2 :: acc) []
          | none => [])
  searchFields.any (fun f => jsIncludes (jsToLower f) keyword)

/-- JavaScript truthiness of a string-or-null filter field: `null` and
`\'\'` are falsy, every other string truthy. -/
def truthyStrOpt : Option String → Bool
  | some s => s != ""
  | none => false

/-- `ContentFilter.applyFilters` (content-filter.js, lines 344–383):
five sequential `Array.prototype.filter` passes, each guarded by the JS
truthiness of the corresponding `currentFilters` field — so a subject,
gradeLevel or difficulty of `\'\'` (non-null but falsy) skips its pass
exactly like `null` does. -/
def applyFilters (allSimulations : List Simulation) (f : FilterState) : List Simulation :=
  let r0 := allSimulations
  let r1 :=
    if truthyStrOpt f.subject then
      r0.filter (fun sim => sim.subject == f.subject.getD "")
    else r0
  let r2 :=
    if truthyStrOpt f.gradeLevel then
      r1.filter (fun sim => sim.gradeLevel == f.gradeLevel.getD "")
    else r1
  let r3 :=
    if truthyStrOpt f.difficulty then
      r2.filter (fun sim => sim.difficulty == f.difficulty.getD "")
    else r2
  let r4 :=
    if f.tags.length > 0 then
      r3.filter (fun sim => f.tags.any (fun t => sim.tags.contains t))
    else r3
  if f.keyword ≠ "" then
    r4.filter (fun sim => matchesKeyword sim (jsToLower f.keyword))
  else r4

/-- The conjunction of the active predicates: a filter field is active
when truthy (non-null and non-empty for the string fields, non-empty for
the tag list and the keyword); an inactive filter constrains nothing. -/
def passesAllFilters (f : FilterState) (sim : Simulation) : Bool :=
  (!truthyStrOpt f.subject || sim.subject == f.subject.getD "") &&
  (!truthyStrOpt f.gradeLevel || sim.gradeLevel == f.gradeLevel.getD "") &&
  (!truthyStrOpt f.difficulty || sim.difficulty == f.difficulty.getD "") &&
  (!(decide (f.tags.length > 0)) || f.tags.any (fun t => sim.tags.contains t)) &&
  (!(f.keyword ≠ "" : Bool) || matchesKeyword sim (jsToLower f.keyword))

theorem decide_bex_eq_any {α : Type} [DecidableEq α] (l tl : List α) :
    (decide (∃ x ∈ l, x ∈ tl) : Bool) = l.any (fun t => decide (t ∈ tl)) := by
  by_cases h : ∃ x ∈ l, x ∈ tl
  · simp [h, List.any_eq_true]
  · simp only [h, decide_False, List.any_eq_true, decide_eq_true_eq]
    symm
    simpa using fun x hx hmem => h ⟨x, hx, hmem⟩

theorem applyFilters_eq_filter (allSimulations : List Simulation) (f : FilterState) :
    applyFilters allSimulations f = allSimulations.filter (passesAllFilters f) := by
  unfold applyFilters passesAllFilters
  by_cases h1 : truthyStrOpt f.subject <;>
    by_cases h2 : truthyStrOpt f.gradeLevel <;>
      by_cases h3 : truthyStrOpt f.difficulty <;>
        by_cases h4 : f.tags.length > 0 <;>
          by_cases h5 : f.keyword ≠ "" <;>
            simp [h1, h2, h3, h4, h5, List.filter_filter, decide_bex_eq_any,
              Bool.and_comm, Bool.and_assoc, Bool.and_left_comm]

/-- Counterexample for C1: at the reachable filter state
`currentFilters.subject = \'\'` — non-null but falsy — the code skips the
subject pass (content-filter.js, line 348 guards it with JS truthiness),
so a simulation whose subject is not `\'\'` is returned: "subject
non-null implies every returned simulation has that subject" is false. -/
theorem applyFilters_empty_subject_counterexample :
    (⟨some "", none, none, [], ""⟩ : FilterState).subject = some "" ∧
    applyFilters
        [⟨"Wave", "d", "physics", "6", "easy", ["waves"], [], [], none, none⟩]
        ⟨some "", none, none, [], ""⟩
      = [⟨"Wave", "d", "physics", "6", "easy", ["waves"], [], [], none, none⟩] ∧
    (⟨"Wave", "d", "physics", "6", "easy", ["waves"], [], [], none, none⟩ :
        Simulation).subject ≠ "" := by
  refine ⟨rfl, rfl, by decide⟩

/-- C1 (amended): `ContentFilter.applyFilters` returns exactly the
members of `allSimulations` that satisfy every active predicate, in
their original order, where a string filter is active when truthy
(non-null *and* non-empty): subject equality when the subject filter is
truthy, likewise for gradeLevel and difficulty, non-empty tag
intersection when the tag filter is non-empty, keyword match when the
keyword is non-empty; a simulation from `allSimulations` is in the
result iff it passes all active predicates. -/
theorem applyFilters_returns_exactly_matching
    (allSimulations : List Simulation) (f : FilterState) :
    applyFilters allSimulations f = allSimulations.filter (passesAllFilters f) ∧
    (∀ sim ∈ applyFilters allSimulations f,
      sim ∈ allSimulations ∧
      (∀ s, f.subject = some s → s ≠ "" → sim.subject = s) ∧
      (∀ g, f.gradeLevel = some g → g ≠ "" → sim.gradeLevel = g) ∧
      (∀ d, f.difficulty = some d → d ≠ "" → sim.difficulty = d) ∧
      (f.tags ≠ [] → ∃ t ∈ f.tags, t ∈ sim.tags) ∧
      (f.keyword ≠ "" → matchesKeyword sim (jsToLower f.keyword) = true)) ∧
    (∀ sim ∈ allSimulations, passesAllFilters f sim = true →
      sim ∈ applyFilters allSimulations f) := by
  refine ⟨applyFilters_eq_filter _ _, ?_, ?_⟩
  · intro sim hmem
    rw [applyFilters_eq_filter] at hmem
    rcases List.mem_filter.mp hmem with ⟨hin, hpass⟩
    unfold passesAllFilters at hpass
    simp only [Bool.and_eq_true] at hpass
    obtain ⟨⟨⟨⟨h1, h2⟩, h3⟩, h4⟩, h5⟩ := hpass
    refine ⟨hin, ?_, ?_, ?_, ?_, ?_⟩
    · intro s hs hne
      rw [hs] at h1
      simpa [truthyStrOpt, hne] using h1
    · intro g hg hne
      rw [hg] at h2
      simpa [truthyStrOpt, hne] using h2
    · intro d hd hne
      rw [hd] at h3
      simpa [truthyStrOpt, hne] using h3
    · intro hne
      have hlen : 0 < f.tags.length := List.length_pos.mpr hne
      simpa [hlen, List.any_eq_true] using h4
    · intro hk
      simpa [hk] using h5
  · intro sim hin hpass
    rw [applyFilters_eq_filter]
    exact List.mem_filter.mpr ⟨hin, hpass⟩

/-- Witness for C1 (amended): a concrete catalogue and a truthy subject
filter on which the active-predicate characterisation is evaluated. -/
theorem applyFilters_returns_exactly_matching_witness :
    (Edulab.applyFilters
        [⟨"Wave", "d", "physics", "6", "easy", ["waves"], [], [], none, none⟩,
         ⟨"Acid", "d", "chemistry", "7", "easy", ["acid"], [], [], none, none⟩]
        ⟨some "physics", none, none, [], ""⟩)
      = [⟨"Wave", "d", "physics", "6", "easy", ["waves"], [], [], none, none⟩] ∧
    (⟨"Wave", "d", "physics", "6", "easy", ["waves"], [], [], none, none⟩ :
        Simulation).subject = "physics" := by
  have h := applyFilters_returns_exactly_matching
    [⟨"Wave", "d", "physics", "6", "easy", ["waves"], [], [], none, none⟩,
     ⟨"Acid", "d", "chemistry", "7", "easy", ["acid"], [], [], none, none⟩]
    ⟨some "physics", none, none, [], ""⟩
  refine ⟨?_, ?_⟩
  · rw [h.1]; rfl
  · exact (h.2.1 _ (by rw [h.1]; exact List.mem_singleton.mpr rfl)).2.1 "physics" rfl
      (by decide)

/-! ## `phet-integration.js` — `PhETIntegration.loadSimulation`

`loadSimulation` (phet-integration.js, lines 291–340) wires a promise to
an iframe: a `load` listener, an `error` listener, a `setTimeout` of
`loadingTimeout` ms, and a progress `setInterval`.  Each handler first
runs `cleanup()` — clearing the timeout, clearing the interval and
removing both listeners — and then settles the promise.  The state below
records which handlers are still armed, and `settlements` records every
settlement that ever happens, so "settles exactly once" is the statement
that the list has at most one element. -/

def phetLoadingTimeout : Nat := 30000

inductive LoadEvent where
  | load
  | error
  | timeout
  | tick
deriving DecidableEq

inductive LoadOutcome where
  | resolved
  | rejectedError
  | rejectedTimeout
deriving DecidableEq

structure LoadState where
  loadAttached : Bool
  errorAttached : Bool
  timeoutPending : Bool
  intervalPending : Bool
  settlements : List LoadOutcome
deriving DecidableEq

/-- The `cleanup()` closure followed by a settlement: both listeners
removed, both timers cleared, the settlement recorded. -/
def cleanupSettle (s : LoadState) (o : LoadOutcome) : LoadState :=
  { loadAttached := false, errorAttached := false,
    timeoutPending := false, intervalPending := false,
    settlements := s.settlements ++ [o] }

/-- One environment event delivered to the wiring of `loadSimulation`:
a handler only runs while its listener is attached (resp. its timer is
still pending). -/
def loadStep (s : LoadState) (e : LoadEvent) : LoadState :=
  match e with
  | .load => if s.loadAttached then cleanupSettle s .resolved else s
  | .error => if s.errorAttached then cleanupSettle s .rejectedError else s
  | .timeout => if s.timeoutPending then cleanupSettle s .rejectedTimeout else s
  | .tick => s

def loadRun (s : LoadState) (es : List LoadEvent) : LoadState :=
  es.foldl loadStep s

/-- State immediately after `loadSimulation` has installed listeners,
started the timeout and the progress interval, and set `iframe.src`. -/
def initLoadState : LoadState :=
  ⟨true, true, true, true, []⟩

def outcomeOfEvent : LoadEvent → Option LoadOutcome
  | .load => some .resolved
  | .error => some .rejectedError
  | .timeout => some .rejectedTimeout
  | .tick => none

/-- The outcome of the first settling event in the environment trace. -/
def firstOutcome : List LoadEvent → Option LoadOutcome
  | [] => none
  | e :: es =>
    match outcomeOfEvent e with
    | some o => some o
    | none => firstOutcome es

def allHandlersDisarmed (s : LoadState) : Prop :=
  s.loadAttached = false ∧ s.errorAttached = false ∧
  s.timeoutPending = false ∧ s.intervalPending = false

theorem loadRun_disarmed_fixed (es : List LoadEvent) (s : LoadState)
    (h : allHandlersDisarmed s) : loadRun s es = s := by
  induction es with
  | nil => rfl
  | cons e rest ih =>
    have hstep : loadStep s e = s := by
      rcases h with ⟨h1, h2, h3, h4⟩
      cases e <;> simp [loadStep, h1, h2, h3]
    simpa [loadRun, hstep] using ih

theorem cleanupSettle_disarmed (s : LoadState) (o : LoadOutcome) :
    allHandlersDisarmed (cleanupSettle s o) := by
  exact ⟨rfl, rfl, rfl, rfl⟩

/-- C2: `loadSimulation` settles exactly once — the settlement list of a
run from the initial state is exactly the first load/error/timeout event
of the trace (resolve on `load`, reject on `error` or on the
`loadingTimeout` of 30000 ms), and once settled every handler is
disarmed: timeout cleared, progress interval cleared, both listeners
removed, so no second settlement or later timer action occurs. -/
theorem loadSimulation_settles_exactly_once (es : List LoadEvent) :
    (loadRun initLoadState es).settlements = (firstOutcome es).elim [] (fun o => [o]) ∧
    ((firstOutcome es).isSome →
      allHandlersDisarmed (loadRun initLoadState es)) ∧
    phetLoadingTimeout = 30000 := by
  refine ⟨?_, ?_, rfl⟩
  · induction es with
    | nil => rfl
    | cons e rest ih =>
      cases e with
      | load =>
        show (loadRun (loadStep initLoadState .load) rest).settlements = _
        rw [show loadStep initLoadState .load = cleanupSettle initLoadState .resolved from rfl,
          loadRun_disarmed_fixed rest _ (cleanupSettle_disarmed _ _)]
        rfl
      | error =>
        show (loadRun (loadStep initLoadState .error) rest).settlements = _
        rw [show loadStep initLoadState .error
              = cleanupSettle initLoadState .rejectedError from rfl,
          loadRun_disarmed_fixed rest _ (cleanupSettle_disarmed _ _)]
        rfl
      | timeout =>
        show (loadRun (loadStep initLoadState .timeout) rest).settlements = _
        rw [show loadStep initLoadState .timeout
              = cleanupSettle initLoadState .rejectedTimeout from rfl,
          loadRun_disarmed_fixed rest _ (cleanupSettle_disarmed _ _)]
        rfl
      | tick =>
        simpa [loadRun, loadStep, firstOutcome, outcomeOfEvent] using ih
  · intro hsome
    induction es with
    | nil => simp [firstOutcome] at hsome
    | cons e rest ih =>
      cases e with
      | load =>
        show allHandlersDisarmed (loadRun (loadStep initLoadState .load) rest)
        rw [show loadStep initLoadState .load = cleanupSettle initLoadState .resolved from rfl,
          loadRun_disarmed_fixed rest _ (cleanupSettle_disarmed _ _)]
        exact cleanupSettle_disarmed _ _
      | error =>
        show allHandlersDisarmed (loadRun (loadStep initLoadState .error) rest)
        rw [show loadStep initLoadState .error
              = cleanupSettle initLoadState .rejectedError from rfl,
          loadRun_disarmed_fixed rest _ (cleanupSettle_disarmed _ _)]
        exact cleanupSettle_disarmed _ _
      | timeout =>
        show allHandlersDisarmed (loadRun (loadStep initLoadState .timeout) rest)
        rw [show loadStep initLoadState .timeout
              = cleanupSettle initLoadState .rejectedTimeout from rfl,
          loadRun_disarmed_fixed rest _ (cleanupSettle_disarmed _ _)]
        exact cleanupSettle_disarmed _ _
      | tick =>
        have hsome' : (firstOutcome rest).isSome := by
          simpa [firstOutcome, outcomeOfEvent] using hsome
        simpa [loadRun, loadStep] using ih hsome'

/-- Witness for C2: the trace "timeout fires, then a late `load` and a
late interval tick" settles once, with a timeout rejection. -/
theorem loadSimulation_settles_exactly_once_witness :
    (loadRun initLoadState [.timeout, .tick, .load]).settlements = [.rejectedTimeout] ∧
    allHandlersDisarmed (loadRun initLoadState [.timeout, .tick, .load]) := by
  have h := loadSimulation_settles_exactly_once [.timeout, .tick, .load]
  exact ⟨by simpa [firstOutcome, outcomeOfEvent] using h.1,
    h.2.1 (by simp [firstOutcome, outcomeOfEvent])⟩

/-! ## `phet-integration.js` — validation and embedding (C9)

`validateSimulation` (lines 519–535) throws on a missing/falsy `id`,
`title` or `phetUrl` (in that order) and on `isValidPhETUrl` failing;
`isValidPhETUrl` (lines 542–550) parses the URL and demands hostname
exactly `phet.colorado.edu` with `/sims/` inside the pathname.
`embedSimulation` (lines 32–74) throws on a missing container, then runs
`validateSimulation`, and only afterwards creates the iframe whose `src`
is set to `simulation.phetUrl` by `loadSimulation`. -/

structure PhetSimData where
  id : String
  title : String
  phetUrl : String
  description : String
deriving DecidableEq

/-- `PhETIntegration.isValidPhETUrl`. -/
def isValidPhETUrl (url : String) : Bool :=
  match parseUrl url with
  | some u => u.hostname == "phet.colorado.edu" && jsIncludes u.pathname "/sims/"
  | none => false

/-- `PhETIntegration.validateSimulation`; `Except.error` embeds `throw`. -/
def validateSimulation (sim : PhetSimData) : Except String Unit :=
  if sim.id == "" then .error "Missing required field: id"
  else if sim.title == "" then .error "Missing required field: title"
  else if sim.phetUrl == "" then .error "Missing required field: phetUrl"
  else if !isValidPhETUrl sim.phetUrl then .error "Invalid PhET URL"
  else .ok ()

/-- Observable outcome of `embedSimulation`: either it threw before any
iframe was created, or it created the iframe and assigned its `src`. -/
inductive EmbedOutcome where
  | errBeforeIframe (msg : String)
  | srcAssigned (url : String)
deriving DecidableEq

/-- `PhETIntegration.embedSimulation` up to the point where
`loadSimulation` assigns `iframe.src = simulation.phetUrl`. -/
def embedSimulation (containerFound : Bool) (sim : PhetSimData) : EmbedOutcome :=
  if !containerFound then .errBeforeIframe "Container element not found"
  else
    match validateSimulation sim with
    | .error e => .errBeforeIframe e
    | .ok _ => .srcAssigned sim.phetUrl

/-- C9: `embedSimulation` throws before creating any iframe unless the
simulation has non-empty `id`, `title` and `phetUrl` and `phetUrl` parses
as a URL with hostname exactly `phet.colorado.edu` and a path containing
`/sims/`; consequently every `src` ever assigned by the embedding path
points at the `phet.colorado.edu` domain. -/
theorem embedSimulation_phet_whitelist (containerFound : Bool) (sim : PhetSimData) :
    (validateSimulation sim = .ok () ↔
      (sim.id ≠ "" ∧ sim.title ≠ "" ∧ sim.phetUrl ≠ "" ∧ isValidPhETUrl sim.phetUrl = true)) ∧
    (validateSimulation sim ≠ .ok () →
      ∃ msg, embedSimulation containerFound sim = .errBeforeIframe msg) ∧
    (∀ url, embedSimulation containerFound sim = .srcAssigned url →
      url = sim.phetUrl ∧
      ∃ u, parseUrl url = some u ∧ u.hostname = "phet.colorado.edu" ∧
        jsIncludes u.pathname "/sims/" = true) := by
  refine ⟨?_, ?_, ?_⟩
  · constructor
    · intro h
      unfold validateSimulation at h
      by_cases h1 : sim.id == "" <;> by_cases h2 : sim.title == "" <;>
        by_cases h3 : sim.phetUrl == "" <;> by_cases h4 : isValidPhETUrl sim.phetUrl <;>
          simp_all
    · rintro ⟨h1, h2, h3, h4⟩
      unfold validateSimulation
      simp [beq_eq_false_iff_ne.mpr h1, beq_eq_false_iff_ne.mpr h2,
        beq_eq_false_iff_ne.mpr h3, h4]
  · intro hne
    unfold embedSimulation
    by_cases hc : containerFound
    · rcases hval : validateSimulation sim with e | u
      · exact ⟨e, by simp [hc, hval]⟩
      · exact absurd (by rw [hval]) hne
    · exact ⟨"Container element not found", by simp [hc]⟩
  · intro url hurl
    unfold embedSimulation at hurl
    by_cases hc : containerFound
    · rcases hval : validateSimulation sim with e | u
      · simp [hc, hval] at hurl
      · simp only [hc, Bool.not_true, if_neg Bool.false_ne_true, hval] at hurl
        rcases hurl with hurl
        have hvalid : isValidPhETUrl sim.phetUrl = true := by
          unfold validateSimulation at hval
          by_cases h1 : sim.id == "" <;> by_cases h2 : sim.title == "" <;>
            by_cases h3 : sim.phetUrl == "" <;>
              by_cases h4 : isValidPhETUrl sim.phetUrl <;> simp_all
        have hu : url = sim.phetUrl := by
          cases hurl; rfl
        subst hu
        refine ⟨rfl, ?_⟩
        unfold isValidPhETUrl at hvalid
        rcases hp : parseUrl sim.phetUrl with _ | u'
        · rw [hp] at hvalid; exact absurd hvalid (by simp)
        · rw [hp] at hvalid
          simp only [Bool.and_eq_true, beq_iff_eq] at hvalid
          exact ⟨u', rfl, hvalid.1, hvalid.2⟩
    · simp [hc] at hurl

/-- Witness for C9: a concrete simulation with a valid PhET URL reaches
the src assignment, and the assigned URL parses with the whitelisted
hostname. -/
theorem embedSimulation_phet_whitelist_witness :
    embedSimulation true
        ⟨"wave-sim", "Waves",
         "https://phet.colorado.edu/sims/html/waves-intro/latest/waves-intro_vi.html",
         "desc"⟩
      = .srcAssigned
          "https://phet.colorado.edu/sims/html/waves-intro/latest/waves-intro_vi.html" ∧
    ∃ u, parseUrl
        "https://phet.colorado.edu/sims/html/waves-intro/latest/waves-intro_vi.html"
      = some u ∧ u.hostname = "phet.colorado.edu" ∧
      jsIncludes u.pathname "/sims/" = true := by
  have h := embedSimulation_phet_whitelist true
    ⟨"wave-sim", "Waves",
     "https://phet.colorado.edu/sims/html/waves-intro/latest/waves-intro_vi.html",
     "desc"⟩
  have hembed : embedSimulation true
      ⟨"wave-sim", "Waves",
       "https://phet.colorado.edu/sims/html/waves-intro/latest/waves-intro_vi.html",
       "desc"⟩
      = .srcAssigned
          "https://phet.colorado.edu/sims/html/waves-intro/latest/waves-intro_vi.html" := by
    decide
  exact ⟨hembed, ((h.2.2 _ hembed).2)⟩

/-! ## JSON values

Dynamic JavaScript/JSON values, for the code paths that inspect data
dynamically (`DataManager.validateData`,
`CompletionTracker.validateDataStructure`/`migrateDataIfNeeded`,
`SimulationManager.addSimulation`). -/

inductive JSValue where
  | nullV
  | boolV (b : Bool)
  | numV (n : Int)
  | strV (s : String)
  | arrV (elems : List JSValue)
  | objV (fields : List (String × JSValue))

/-- JavaScript truthiness. -/
def jsTruthy : JSValue → Bool
  | .nullV => false
  | .boolV b => b
  | .numV n => n != 0
  | .strV s => s != ""
  | .arrV _ => true
  | .objV _ => true

/-- `typeof v === 'object'` (true for `null`, arrays and objects). -/
def jsTypeofObject : JSValue → Bool
  | .nullV => true
  | .arrV _ => true
  | .objV _ => true
  | _ => false

/-- `typeof v === 'number'`. -/
def jsTypeofNumber : JSValue → Bool
  | .numV _ => true
  | _ => false

/-- Property read `v[k]`; `none` is `undefined`. -/
def jsGetField : JSValue → String → Option JSValue
  | .objV fields, k => fields.lookup k
  | _, _ => none

/-- Property write `v[k] = x` (meaningful on objects, as used by the
repository). -/
def jsSetField : JSValue → String → JSValue → JSValue
  | .objV fields, k, x => .objV (jsSetKey fields k x)
  | v, _, _ => v

/-- Truthiness of a possibly-`undefined` property. -/
def jsTruthyOpt : Option JSValue → Bool
  | some v => jsTruthy v
  | none => false

/-- `Object.keys(v).length` for the container values the repository
feeds it (`{}`-defaulted elsewhere; non-containers have no enumerable
keys). -/
def jsKeysLength : JSValue → Nat
  | .objV fields => fields.length
  | .arrV elems => elems.length
  | .strV s => s.data.length
  | _ => 0

/-! ## `data-manager.js` — `DataManager.fetchWithRetry` (C3)

The constructor fixes `retryAttempts = 3` and `retryDelay = 1000`.  An
attempt's interaction with the environment (the `fetch`, the HTTP status,
the JSON body) is the oracle `Nat → AttemptOutcome`, indexed by the
attempt number; `attemptResult` is the body of the `try` block: a thrown
fetch, a non-ok response, an unparsable body, or a `validateData` failure
all surface as `Except.error`. -/

def retryAttempts : Nat := 3
def retryDelay : Nat := 1000

/-- `DataManager.validateData` (data-manager.js, lines 379–407);
`Except.error` embeds `throw`. -/
def validateData (data : JSValue) (type : String) : Except String Unit :=
  if !(jsTruthy data && jsTypeofObject data) then
    .error ("Invalid data format for " ++ type)
  else if type == "subjects" then
    if !(jsTruthyOpt (jsGetField data "subjects") &&
          (jsGetField data "subjects").elim false jsTypeofObject) then
      .error "Subjects data missing or invalid"
    else .ok ()
  else if type == "simulations" then
    match jsGetField data "simulations" with
    | some (.arrV sims) =>
      let checkSim : JSValue → Bool := fun sim =>
        ["id", "title", "subject", "gradeLevel", "phetUrl"].all
          (fun field => jsTruthyOpt (jsGetField sim field))
      if sims.all checkSim then .ok ()
      else .error "Simulation: Missing required field"
    | _ => .error "Simulations data must be an array"
  else .ok ()

/-- What one iteration of the retry loop observes. -/
inductive AttemptOutcome where
  | netFail (msg : String)
  | httpResp (ok : Bool) (statusLine : String) (body : Except String JSValue)

/-- The `try` block of one attempt: throwing fetch, `!response.ok`,
body-parse failure and `validateData` failure each raise. -/
def attemptResult (a : AttemptOutcome) (cacheKey : String) : Except String JSValue :=
  match a with
  | .netFail msg => .error msg
  | .httpResp ok statusLine body =>
    if !ok then .error ("HTTP " ++ statusLine)
    else
      match body with
      | .error msg => .error msg
      | .ok data =>
        match validateData data cacheKey with
        | .error msg => .error msg
        | .ok _ => .ok data

structure RetryRun where
  result : Except String JSValue
  attemptsMade : Nat
  delays : List Nat

/-- The `for (attempt = 1; attempt <= retryAttempts; attempt++)` loop:
`remaining` counts the iterations still allowed (including the current
one); between failed attempts the loop awaits `retryDelay * attempt`. -/
def retryLoop (oracle : Nat → AttemptOutcome) (url cacheKey : String) :
    Nat → Nat → List Nat → String → RetryRun
  | attempt, remaining + 1, delays, _ =>
    match attemptResult (oracle attempt) cacheKey with
    | .ok v => ⟨.ok v, attempt, delays⟩
    | .error e =>
      if remaining = 0 then
        ⟨.error ("Failed to load " ++ url ++ " after " ++ toString retryAttempts
          ++ " attempts: " ++ e), attempt, delays⟩
      else
        retryLoop oracle url cacheKey (attempt + 1) remaining
          (delays ++ [retryDelay * attempt]) e
  | attempt, 0, delays, lastError =>
    ⟨.error ("Failed to load " ++ url ++ " after " ++ toString retryAttempts
      ++ " attempts: " ++ lastError), attempt, delays⟩

/-- `DataManager.fetchWithRetry` (data-manager.js, lines 330–372). -/
def fetchWithRetry (oracle : Nat → AttemptOutcome) (url cacheKey : String) : RetryRun :=
  retryLoop oracle url cacheKey 1 retryAttempts [] ""

/-- Is an attempt the successful kind (ok response, parsed body passing
`validateData`)? -/
def attemptOk (oracle : Nat → AttemptOutcome) (cacheKey : String) (k : Nat) : Prop :=
  ∃ v, attemptResult (oracle k) cacheKey = .ok v

instance (oracle : Nat → AttemptOutcome) (cacheKey : String) (k : Nat) :
    Decidable (attemptOk oracle cacheKey k) := by
  unfold attemptOk
  rcases attemptResult (oracle k) cacheKey with e | v
  · exact .isFalse (by simp)
  · exact .isTrue ⟨v, rfl⟩

/-- C3: `fetchWithRetry` makes at most `retryAttempts = 3` attempts; the
first attempt whose ok response passes `validateData` is returned with no
further attempt; it waits `retryDelay * attempt` between consecutive
failures; and only after all 3 attempts fail does it throw, naming the
last failure. -/
theorem fetchWithRetry_spec (oracle : Nat → AttemptOutcome) (url cacheKey : String) :
    retryAttempts = 3 ∧ retryDelay = 1000 ∧
    (fetchWithRetry oracle url cacheKey).attemptsMade ≤ 3 ∧
    (∀ k, 1 ≤ k → k ≤ 3 → attemptOk oracle cacheKey k →
      (∀ j, 1 ≤ j → j < k → ¬ attemptOk oracle cacheKey j) →
      (fetchWithRetry oracle url cacheKey).result = attemptResult (oracle k) cacheKey ∧
      (fetchWithRetry oracle url cacheKey).attemptsMade = k ∧
      (fetchWithRetry oracle url cacheKey).delays
        = (List.range (k - 1)).map (fun i => retryDelay * (i + 1))) ∧
    ((∀ j, 1 ≤ j → j ≤ 3 → ¬ attemptOk oracle cacheKey j) →
      ∃ msg, attemptResult (oracle 3) cacheKey = .error msg ∧
        (fetchWithRetry oracle url cacheKey).result
          = .error ("Failed to load " ++ url ++ " after 3 attempts: " ++ msg) ∧
        (fetchWithRetry oracle url cacheKey).attemptsMade = 3 ∧
        (fetchWithRetry oracle url cacheKey).delays = [1000, 2000]) := by
  refine ⟨rfl, rfl, ?_, ?_, ?_⟩
  · unfold fetchWithRetry retryAttempts
    rcases h1 : attemptResult (oracle 1) cacheKey with e1 | v1 <;>
      rcases h2 : attemptResult (oracle 2) cacheKey with e2 | v2 <;>
        rcases h3 : attemptResult (oracle 3) cacheKey with e3 | v3 <;>
          simp [retryLoop, h1, h2, h3]
  · intro k hk1 hk3 hok hprev
    interval_cases k
    · rcases hok with ⟨v, hv⟩
      unfold fetchWithRetry retryAttempts
      simp [retryLoop, hv]
    · rcases hok with ⟨v, hv⟩
      have h1 : ¬ attemptOk oracle cacheKey 1 := hprev 1 le_rfl one_lt_two
      rcases he1 : attemptResult (oracle 1) cacheKey with e1 | v1
      · unfold fetchWithRetry retryAttempts
        simp [retryLoop, he1, hv, retryDelay, List.range_succ]
      · exact absurd ⟨v1, he1⟩ h1
    · rcases hok with ⟨v, hv⟩
      have h1 : ¬ attemptOk oracle cacheKey 1 := hprev 1 le_rfl (by norm_num)
      have h2 : ¬ attemptOk oracle cacheKey 2 := hprev 2 one_le_two (by norm_num)
      rcases he1 : attemptResult (oracle 1) cacheKey with e1 | v1
      · rcases he2 : attemptResult (oracle 2) cacheKey with e2 | v2
        · unfold fetchWithRetry retryAttempts
          simp [retryLoop, he1, he2, hv, retryDelay, List.range_succ]
        · exact absurd ⟨v2, he2⟩ h2
      · exact absurd ⟨v1, he1⟩ h1
  · intro hall
    have h1 : ¬ attemptOk oracle cacheKey 1 := hall 1 le_rfl (by norm_num)
    have h2 : ¬ attemptOk oracle cacheKey 2 := hall 2 one_le_two (by norm_num)
    have h3 : ¬ attemptOk oracle cacheKey 3 := hall 3 (by norm_num) le_rfl
    rcases he1 : attemptResult (oracle 1) cacheKey with e1 | v1
    · rcases he2 : attemptResult (oracle 2) cacheKey with e2 | v2
      · rcases he3 : attemptResult (oracle 3) cacheKey with e3 | v3
        · refine ⟨e3, rfl, ?_⟩
          unfold fetchWithRetry retryAttempts
          simp only [retryLoop, he1, he2, he3, retryDelay]
          norm_num
          rw [show toString Edulab.retryAttempts = "3" from rfl,
            String.append_assoc ("Failed to load " ++ url) " after " "3",
            show (" after " : String) ++ "3" = " after 3" from rfl,
            String.append_assoc ("Failed to load " ++ url) " after 3" " attempts: ",
            show (" after 3" : String) ++ " attempts: " = " after 3 attempts: " from rfl]
        · exact absurd ⟨v3, he3⟩ h3
      · exact absurd ⟨v2, he2⟩ h2
    · exact absurd ⟨v1, he1⟩ h1

/-- Witness for C3: an oracle failing on attempt 1 and succeeding on
attempt 2 yields its data after one 1000 ms delay and two attempts. -/
theorem fetchWithRetry_spec_witness :
    (fetchWithRetry
        (fun n => if n = 2 then .httpResp true "200" (.ok (.objV []))
                  else .netFail "connection reset")
        "data/simulations.json" "other").result = .ok (.objV []) ∧
    (fetchWithRetry
        (fun n => if n = 2 then .httpResp true "200" (.ok (.objV []))
                  else .netFail "connection reset")
        "data/simulations.json" "other").attemptsMade = 2 ∧
    (fetchWithRetry
        (fun n => if n = 2 then .httpResp true "200" (.ok (.objV []))
                  else .netFail "connection reset")
        "data/simulations.json" "other").delays = [1000] := by
  have h := fetchWithRetry_spec
    (fun n => if n = 2 then .httpResp true "200" (.ok (.objV []))
              else .netFail "connection reset")
    "data/simulations.json" "other"
  have h2 := h.2.2.2.1 2 one_le_two (by norm_num)
    ⟨.objV [], by simp [attemptResult, validateData, jsTruthy, jsTypeofObject]⟩
    (by
      intro j hj1 hj2
      have : j = 1 := by omega
      subst this
      rintro ⟨v, hv⟩
      simp [attemptResult] at hv)
  refine ⟨?_, h2.2.1, by simpa [retryDelay] using h2.2.2⟩
  rw [h2.1]
  simp [attemptResult, validateData, jsTruthy, jsTypeofObject]

/-! ## `completion-tracker.js` — loading and migration (C4)

`loadCompletionData` reads `localStorage[storageKey]`; a missing value,
a `JSON.parse` failure, or a `validateDataStructure` failure all fall
through to `createEmptyData()`.  `Stored` is the storage content as the
parser sees it: absent, unparsable, or a parsed JSON value.  The ambient
`Date.now()` and the session id are explicit parameters. -/

inductive Stored where
  | garbage
  | parsed (v : JSValue)

/-- `CompletionTracker.validateDataStructure` (part_002, lines 352–359):
`data && typeof data === 'object' && typeof data.completed === 'object'
&& typeof data.accessed === 'object' && typeof data.lastUpdated ===
'number'`. -/
def validateDataStructure (data : JSValue) : Bool :=
  jsTruthy data && jsTypeofObject data &&
  (jsGetField data "completed").elim false jsTypeofObject &&
  (jsGetField data "accessed").elim false jsTypeofObject &&
  (jsGetField data "lastUpdated").elim false jsTypeofNumber

/-- `if (!data.version) data.version = '1.0.0'` (part_002, line 367). -/
def migrateStepVersion (data : JSValue) : JSValue :=
  if jsTruthyOpt (jsGetField data "version") then data
  else jsSetField data "version" (.strV "1.0.0")

/-- `if (typeof data.totalCompleted !== 'number') data.totalCompleted =
Object.keys(data.completed || \x7b\x7d).length` (part_002, line 372). -/
def migrateStepTotal (data : JSValue) : JSValue :=
  if (jsGetField data "totalCompleted").elim false jsTypeofNumber then data
  else jsSetField data "totalCompleted"
    (.numV (jsKeysLength ((jsGetField data "completed").getD .nullV)))

/-- `if (!data.sessionId) data.sessionId = this.getSessionId()`
(part_002, line 377). -/
def migrateStepSession (data : JSValue) (sid : String) : JSValue :=
  if jsTruthyOpt (jsGetField data "sessionId") then data
  else jsSetField data "sessionId" (.strV sid)

/-- `CompletionTracker.migrateDataIfNeeded` (part_002, lines 365–382):
the three in-place property repairs in program order. -/
def migrateDataIfNeeded (data : JSValue) (sid : String) : JSValue :=
  migrateStepSession (migrateStepTotal (migrateStepVersion data)) sid

/-- `CompletionTracker.createEmptyData` (part_002, lines 335–345). -/
def createEmptyData (now : Int) (sid : String) : JSValue :=
  .objV [("version", .strV "1.0.0"), ("created", .numV now),
    ("lastUpdated", .numV now), ("sessionId", .strV sid),
    ("totalCompleted", .numV 0), ("completed", .objV []), ("accessed", .objV [])]

/-- `CompletionTracker.loadCompletionData` (part_002, lines 283–300);
it is a total function of the storage content — it never throws. -/
def loadCompletionData (stored : Option Stored) (now : Int) (sid : String) : JSValue :=
  match stored with
  | some (.parsed v) =>
    if validateDataStructure v then migrateDataIfNeeded v sid
    else createEmptyData now sid
  | _ => createEmptyData now sid

theorem validateDataStructure_objV {v : JSValue} (h : validateDataStructure v = true) :
    ∃ fields, v = .objV fields := by
  cases v with
  | objV fields => exact ⟨fields, rfl⟩
  | _ => simp [validateDataStructure, jsTruthy, jsTypeofObject, jsGetField] at h

theorem jsGetField_jsSetField_eq {fields : List (String × JSValue)} (k : String) (x : JSValue) :
    jsGetField (jsSetField (.objV fields) k x) k = some x := by
  simp [jsSetField, jsGetField, jsSetKey_lookup_eq]

theorem jsGetField_jsSetField_ne {fields : List (String × JSValue)} (k k' : String)
    (x : JSValue) (h : k' ≠ k) :
    jsGetField (jsSetField (.objV fields) k x) k' = jsGetField (.objV fields) k' := by
  simp [jsSetField, jsGetField, jsSetKey_lookup_ne _ _ _ _ h]

theorem jsSetField_objV (fields : List (String × JSValue)) (k : String) (x : JSValue) :
    jsSetField (.objV fields) k x = .objV (jsSetKey fields k x) := rfl

theorem migrateStepVersion_objV (fields : List (String × JSValue)) :
    ∃ gs, migrateStepVersion (.objV fields) = .objV gs := by
  unfold migrateStepVersion
  by_cases h : jsTruthyOpt (jsGetField (.objV fields) "version")
  · exact ⟨fields, by simp [h]⟩
  · exact ⟨jsSetKey fields "version" (.strV "1.0.0"), by simp [h, jsSetField]⟩

theorem migrateStepVersion_present (fields : List (String × JSValue)) :
    (jsGetField (migrateStepVersion (.objV fields)) "version").isSome := by
  unfold migrateStepVersion
  rcases hg : jsGetField (.objV fields) "version" with _ | g
  · simp [jsTruthyOpt, hg, jsGetField_jsSetField_eq]
  · by_cases ht : jsTruthy g
    · simp [jsTruthyOpt, hg, ht]
    · simp [jsTruthyOpt, hg, ht, jsGetField_jsSetField_eq]

theorem migrateStepVersion_get_ne (fields : List (String × JSValue)) (k : String)
    (h : k ≠ "version") :
    jsGetField (migrateStepVersion (.objV fields)) k = jsGetField (.objV fields) k := by
  unfold migrateStepVersion
  by_cases hc : jsTruthyOpt (jsGetField (.objV fields) "version")
  · simp [hc]
  · simp [hc, jsGetField_jsSetField_ne _ _ _ h]

theorem migrateStepTotal_objV (fields : List (String × JSValue)) :
    ∃ gs, migrateStepTotal (.objV fields) = .objV gs := by
  unfold migrateStepTotal
  by_cases h : (jsGetField (.objV fields) "totalCompleted").elim false jsTypeofNumber
  · exact ⟨fields, by simp [h]⟩
  · refine ⟨jsSetKey fields "totalCompleted"
      (.numV (jsKeysLength ((jsGetField (.objV fields) "completed").getD .nullV))), ?_⟩
    simp only [h, if_false, ite_false, Bool.false_eq_true]
    exact jsSetField_objV _ _ _

theorem migrateStepTotal_present (fields : List (String × JSValue)) :
    ∃ n, jsGetField (migrateStepTotal (.objV fields)) "totalCompleted" = some (.numV n) := by
  unfold migrateStepTotal
  rcases hg : jsGetField (.objV fields) "totalCompleted" with _ | g
  · refine ⟨(jsKeysLength ((jsGetField (.objV fields) "completed").getD .nullV) : Int), ?_⟩
    simp [hg, jsGetField_jsSetField_eq]
  · cases g with
    | numV n => exact ⟨n, by simp [hg, jsTypeofNumber]⟩
    | _ =>
      refine ⟨(jsKeysLength ((jsGetField (.objV fields) "completed").getD .nullV) : Int), ?_⟩
      simp [hg, jsTypeofNumber, jsGetField_jsSetField_eq]

theorem migrateStepTotal_get_ne (fields : List (String × JSValue)) (k : String)
    (h : k ≠ "totalCompleted") :
    jsGetField (migrateStepTotal (.objV fields)) k = jsGetField (.objV fields) k := by
  unfold migrateStepTotal
  by_cases hc : (jsGetField (.objV fields) "totalCompleted").elim false jsTypeofNumber
  · simp [hc]
  · simp [hc, jsGetField_jsSetField_ne _ _ _ h]

theorem migrateStepSession_objV (fields : List (String × JSValue)) (sid : String) :
    ∃ gs, migrateStepSession (.objV fields) sid = .objV gs := by
  unfold migrateStepSession
  by_cases h : jsTruthyOpt (jsGetField (.objV fields) "sessionId")
  · exact ⟨fields, by simp [h]⟩
  · exact ⟨jsSetKey fields "sessionId" (.strV sid), by simp [h, jsSetField]⟩

theorem migrateStepSession_present (fields : List (String × JSValue)) (sid : String) :
    (jsGetField (migrateStepSession (.objV fields) sid) "sessionId").isSome := by
  unfold migrateStepSession
  rcases hg : jsGetField (.objV fields) "sessionId" with _ | g
  · simp [jsTruthyOpt, hg, jsGetField_jsSetField_eq]
  · by_cases ht : jsTruthy g
    · simp [jsTruthyOpt, hg, ht]
    · simp [jsTruthyOpt, hg, ht, jsGetField_jsSetField_eq]

theorem migrateStepSession_get_ne (fields : List (String × JSValue)) (sid : String)
    (k : String) (h : k ≠ "sessionId") :
    jsGetField (migrateStepSession (.objV fields) sid) k = jsGetField (.objV fields) k := by
  unfold migrateStepSession
  by_cases hc : jsTruthyOpt (jsGetField (.objV fields) "sessionId")
  · simp [hc]
  · simp [hc, jsGetField_jsSetField_ne _ _ _ h]

/-- After migration the three bookkeeping fields are present, with a
numeric `totalCompleted`. -/
theorem migrateDataIfNeeded_fields_present {v : JSValue} (sid : String)
    (hv : validateDataStructure v = true) :
    (jsGetField (migrateDataIfNeeded v sid) "version").isSome ∧
    (∃ n, jsGetField (migrateDataIfNeeded v sid) "totalCompleted" = some (.numV n)) ∧
    (jsGetField (migrateDataIfNeeded v sid) "sessionId").isSome := by
  obtain ⟨fields, rfl⟩ := validateDataStructure_objV hv
  unfold migrateDataIfNeeded
  obtain ⟨fs1, h1⟩ := migrateStepVersion_objV fields
  obtain ⟨fs2, h2⟩ := migrateStepTotal_objV fs1
  refine ⟨?_, ?_, ?_⟩
  · rw [h1, h2, migrateStepSession_get_ne fs2 sid "version" (by decide),
      ← h2, migrateStepTotal_get_ne fs1 "version" (by decide), ← h1]
    exact migrateStepVersion_present fields
  · rw [h1, h2, migrateStepSession_get_ne fs2 sid "totalCompleted" (by decide), ← h2]
    exact migrateStepTotal_present fs1
  · rw [h1, h2]
    exact migrateStepSession_present fs2 sid

/-- C4: `loadCompletionData` never throws (it is a total function of the
storage content); when the stored string parses and passes
`validateDataStructure` it returns the parsed data migrated so that
`version`, `totalCompleted` and `sessionId` are present; in every other
case (no stored value, parse error, failed validation) it returns a
fresh empty structure with `totalCompleted` 0 and empty `completed` and
`accessed` maps. -/
theorem loadCompletionData_spec (stored : Option Stored) (now : Int) (sid : String) :
    (∀ v, stored = some (.parsed v) → validateDataStructure v = true →
      loadCompletionData stored now sid = migrateDataIfNeeded v sid ∧
      (jsGetField (loadCompletionData stored now sid) "version").isSome ∧
      (∃ n, jsGetField (loadCompletionData stored now sid) "totalCompleted"
        = some (.numV n)) ∧
      (jsGetField (loadCompletionData stored now sid) "sessionId").isSome) ∧
    ((stored = none ∨ stored = some .garbage ∨
        ∃ v, stored = some (.parsed v) ∧ validateDataStructure v = false) →
      loadCompletionData stored now sid = createEmptyData now sid ∧
      jsGetField (loadCompletionData stored now sid) "totalCompleted" = some (.numV 0) ∧
      jsGetField (loadCompletionData stored now sid) "completed" = some (.objV []) ∧
      jsGetField (loadCompletionData stored now sid) "accessed" = some (.objV [])) := by
  constructor
  · rintro v rfl hv
    have : loadCompletionData (some (.parsed v)) now sid = migrateDataIfNeeded v sid := by
      simp [loadCompletionData, hv]
    rw [this]
    exact ⟨rfl, migrateDataIfNeeded_fields_present sid hv⟩
  · intro hcase
    have : loadCompletionData stored now sid = createEmptyData now sid := by
      rcases hcase with rfl | rfl | ⟨v, rfl, hv⟩
      · rfl
      · rfl
      · simp [loadCompletionData, hv]
    rw [this]
    exact ⟨rfl, rfl, rfl, rfl⟩

/-- Witness for C4: a stored record missing `totalCompleted` and
`sessionId` but passing validation is migrated with all three fields
present; a garbage store yields the empty structure. -/
theorem loadCompletionData_spec_witness :
    (loadCompletionData
        (some (.parsed (.objV [("completed", .objV []), ("accessed", .objV []),
          ("lastUpdated", .numV 7)])))
        99 "session_w"
      = migrateDataIfNeeded
          (.objV [("completed", .objV []), ("accessed", .objV []),
            ("lastUpdated", .numV 7)]) "session_w") ∧
    (∃ n, jsGetField
        (loadCompletionData
          (some (.parsed (.objV [("completed", .objV []), ("accessed", .objV []),
            ("lastUpdated", .numV 7)])))
          99 "session_w") "totalCompleted" = some (.numV n)) ∧
    loadCompletionData (some .garbage) 99 "session_w" = createEmptyData 99 "session_w" := by
  have h := loadCompletionData_spec
    (some (.parsed (.objV [("completed", .objV []), ("accessed", .objV []),
      ("lastUpdated", .numV 7)]))) 99 "session_w"
  have hval : validateDataStructure
      (.objV [("completed", .objV []), ("accessed", .objV []),
        ("lastUpdated", .numV 7)]) = true := rfl
  have h1 := h.1 _ rfl hval
  have h2 := (loadCompletionData_spec (some .garbage) 99 "session_w").2
    (Or.inr (Or.inl rfl))
  exact ⟨h1.1, h1.2.2.1, h2.1⟩

/-! ## `completion-tracker.js` — tracker state and its operations
(C5, C10)

The in-memory `completionData` of a `CompletionTracker`, typed: the
`completed` and `accessed` maps are association lists keyed by simulation
id (JavaScript object keys are unique; `jsSetKey`/`jsDelKey` preserve
that).  Completion/access entries carry the fields the claims inspect;
the ambient `Date.now()` and session id are explicit parameters. -/

structure CompEntry where
  completedAt : Int
deriving DecidableEq

structure AccEntry where
  accessedAt : Int
  count : Nat
deriving DecidableEq

structure TrackerData where
  version : String
  created : Int
  lastUpdated : Int
  sessionId : String
  totalCompleted : Nat
  completed : List (String × CompEntry)
  accessed : List (String × AccEntry)
deriving DecidableEq

/-- Typed `createEmptyData` (part_002, lines 335–345). -/
def emptyTrackerData (now : Int) (sid : String) : TrackerData :=
  ⟨"1.0.0", now, now, sid, 0, [], []⟩

/-- `CompletionTracker.markCompleted` (part_002, lines 31–60): insert the
completion entry, bump `lastUpdated`, recompute `totalCompleted` as the
key count of `completed`. -/
def markCompleted (d : TrackerData) (simulationId : String) (now : Int) : TrackerData :=
  let completed := jsSetKey d.completed simulationId ⟨now⟩
  { d with
    completed := completed
    lastUpdated := now
    totalCompleted := completed.length }

/-- `CompletionTracker.markAccessed` (part_002, lines 68–96). -/
def markAccessed (d : TrackerData) (simulationId : String) (now : Int) : TrackerData :=
  let prevCount := ((d.accessed.lookup simulationId).map AccEntry.count).getD 0
  { d with
    accessed := jsSetKey d.accessed simulationId ⟨now, prevCount + 1⟩
    lastUpdated := now }

/-- `CompletionTracker.clearCompletion` (part_002, lines 170–188). -/
def clearCompletion (d : TrackerData) (simulationId : String) (now : Int) : TrackerData :=
  let completed := jsDelKey d.completed simulationId
  { d with
    completed := completed
    lastUpdated := now
    totalCompleted := completed.length }

/-- `CompletionTracker.clearAllData` (part_002, lines 193–209). -/
def clearAllData (now : Int) (sid : String) : TrackerData :=
  emptyTrackerData now sid

/-- `CompletionTracker.importData` (part_002, lines 224–246): after
`JSON.parse` and `validateDataStructure` (which a typed `TrackerData`
satisfies by construction — it checks only that `completed` and
`accessed` are objects and `lastUpdated` a number) the imported value
replaces the whole state. -/
def importData (_d : TrackerData) (imported : TrackerData) : TrackerData :=
  imported

def ninetyDaysMs : Int := 90 * 24 * 60 * 60 * 1000

/-- Descending order on `completedAt`, the JavaScript comparator
`(a, b) => b.completedAt - a.completedAt`. -/
def moreRecent (p q : String × CompEntry) : Bool :=
  q.2.completedAt ≤ p.2.completedAt

/-- `CompletionTracker.cleanupOldData` (part_002, lines 387–410): drop
accessed records older than the 90-day cutoff; when more than 1000
completion records exist, keep the 500 most recent by `completedAt` and
set `totalCompleted` to the kept count; finally bump `lastUpdated`. -/
def cleanupOldData (d : TrackerData) (now : Int) : TrackerData :=
  let cutoffTime := now - ninetyDaysMs
  let accessed := d.accessed.filter (fun p => !(p.2.accessedAt < cutoffTime : Bool))
  let afterAccess : TrackerData := { d with accessed := accessed }
  let afterCompleted : TrackerData :=
    if afterAccess.completed.length > 1000 then
      let sortedEntries := (afterAccess.completed.mergeSort moreRecent).take 500
      { afterAccess with
        completed := sortedEntries
        totalCompleted := sortedEntries.length }
    else afterAccess
  { afterCompleted with lastUpdated := now }

/-- The implicit tracker invariant: `totalCompleted` equals the number of
keys of the `completed` map. -/
def trackerInv (d : TrackerData) : Prop :=
  d.totalCompleted = d.completed.length

instance (d : TrackerData) : Decidable (trackerInv d) := by
  unfold trackerInv; infer_instance

theorem moreRecent_trans (a b c : String × CompEntry) :
    moreRecent a b → moreRecent b c → moreRecent a c := by
  unfold moreRecent
  intro h1 h2
  simp only [decide_eq_true_eq] at *
  omega

theorem moreRecent_total (a b : String × CompEntry) :
    moreRecent a b || moreRecent b a := by
  unfold moreRecent
  rcases le_total b.2.completedAt a.2.completedAt with h | h <;> simp [h]

/-- C5 (as stated): `cleanupOldData` removes exactly the accessed records
older than 90 days before `now`; it touches completion records only when
there are more than 1000, keeping exactly the 500 most recent by
`completedAt` (every kept entry is at least as recent as every dropped
one) and setting `totalCompleted` to the kept count; with at most 1000
completion records, `completed` and `totalCompleted` are unchanged. -/
theorem cleanupOldData_spec (d : TrackerData) (now : Int) :
    (cleanupOldData d now).accessed
      = d.accessed.filter (fun p => !(p.2.accessedAt < now - ninetyDaysMs : Bool)) ∧
    (d.completed.length ≤ 1000 →
      (cleanupOldData d now).completed = d.completed ∧
      (cleanupOldData d now).totalCompleted = d.totalCompleted) ∧
    (d.completed.length > 1000 →
      (cleanupOldData d now).completed.length = 500 ∧
      (cleanupOldData d now).totalCompleted = 500 ∧
      ∃ dropped, ((cleanupOldData d now).completed ++ dropped).Perm d.completed ∧
        ∀ p ∈ (cleanupOldData d now).completed, ∀ q ∈ dropped,
          q.2.completedAt ≤ p.2.completedAt) := by
  refine ⟨?_, ?_, ?_⟩
  · unfold cleanupOldData
    by_cases h : d.completed.length > 1000 <;> simp [h]
  · intro hle
    have h : ¬ d.completed.length > 1000 := by omega
    unfold cleanupOldData
    simp [h]
  · intro hgt
    have hsortlen : (d.completed.mergeSort moreRecent).length = d.completed.length :=
      (d.completed.mergeSort_perm moreRecent).length_eq
    have hkeep : (cleanupOldData d now).completed
        = (d.completed.mergeSort moreRecent).take 500 := by
      unfold cleanupOldData
      simp [hgt]
    have hlen : (cleanupOldData d now).completed.length = 500 := by
      rw [hkeep, List.length_take, hsortlen]
      omega
    refine ⟨hlen, ?_, ?_⟩
    · unfold cleanupOldData
      simp only [hgt, if_true, List.length_take, hsortlen, gt_iff_lt, ite_true]
      omega
    · refine ⟨(d.completed.mergeSort moreRecent).drop 500, ?_, ?_⟩
      · rw [hkeep, List.take_append_drop]
        exact d.completed.mergeSort_perm moreRecent
      · intro p hp q hq
        have hsorted : ((d.completed.mergeSort moreRecent).take 500 ++
            (d.completed.mergeSort moreRecent).drop 500).Pairwise
              (fun a b => moreRecent a b = true) := by
          rw [List.take_append_drop]
          exact List.sorted_mergeSort moreRecent_trans moreRecent_total d.completed
        rw [hkeep] at hp
        have := (List.pairwise_append.mp hsorted).2.2 p hp q hq
        simpa [moreRecent] using this

/-- Witness for C5: with two completion records (≤ 1000) nothing is
dropped from `completed`, while an accessed record 91 days old is
removed and a fresh one kept. -/
theorem cleanupOldData_spec_witness :
    (cleanupOldData
        ⟨"1.0.0", 0, 0, "s", 2,
          [("a", ⟨10⟩), ("b", ⟨20⟩)],
          [("old", ⟨-7862400000, 1⟩), ("new", ⟨0, 2⟩)]⟩
        0).completed = [("a", ⟨10⟩), ("b", ⟨20⟩)] ∧
    (cleanupOldData
        ⟨"1.0.0", 0, 0, "s", 2,
          [("a", ⟨10⟩), ("b", ⟨20⟩)],
          [("old", ⟨-7862400000, 1⟩), ("new", ⟨0, 2⟩)]⟩
        0).accessed = [("new", ⟨0, 2⟩)] := by
  have h := cleanupOldData_spec
    ⟨"1.0.0", 0, 0, "s", 2,
      [("a", ⟨10⟩), ("b", ⟨20⟩)],
      [("old", ⟨-7862400000, 1⟩), ("new", ⟨0, 2⟩)]⟩ 0
  refine ⟨(h.2.1 (by norm_num)).1, ?_⟩
  rw [h.1]
  decide

/-- Counterexample for C10: `importData` accepts data whose
`totalCompleted` disagrees with the key count of `completed` (its
validation never checks that), so the invariant is not preserved by
every public mutating operation. -/
theorem importData_invariant_counterexample :
    trackerInv (emptyTrackerData 0 "s") ∧
    ¬ trackerInv (importData (emptyTrackerData 0 "s")
        ⟨"1.0.0", 0, 0, "s", 5, [], []⟩) := by
  decide

/-- C10 (amended): the invariant `totalCompleted = number of completed
keys` is preserved by `markCompleted`, `markAccessed`, `clearCompletion`,
`clearAllData` and `cleanupOldData` from any state satisfying it, and by
`importData` precisely when the imported data itself satisfies it. -/
theorem tracker_invariant_preserved (d imported : TrackerData)
    (simulationId : String) (now : Int) (sid : String)
    (hinv : trackerInv d) :
    trackerInv (markCompleted d simulationId now) ∧
    trackerInv (markAccessed d simulationId now) ∧
    trackerInv (clearCompletion d simulationId now) ∧
    trackerInv (clearAllData now sid) ∧
    trackerInv (cleanupOldData d now) ∧
    (trackerInv imported → trackerInv (importData d imported)) := by
  refine ⟨rfl, hinv, rfl, rfl, ?_, fun h => h⟩
  have hinv' : d.totalCompleted = d.completed.length := hinv
  unfold trackerInv cleanupOldData
  by_cases h : d.completed.length > 1000 <;> simp [h, hinv']

/-- Witness for C10 (amended): the preserved invariant evaluated on a
concrete state and operation arguments. -/
theorem tracker_invariant_preserved_witness :
    trackerInv (markCompleted (emptyTrackerData 0 "s") "sim-1" 5) ∧
    trackerInv (cleanupOldData (emptyTrackerData 0 "s") 5) := by
  have h := tracker_invariant_preserved (emptyTrackerData 0 "s")
    (emptyTrackerData 0 "s") "sim-1" 5 "s" (by decide)
  exact ⟨h.1, h.2.2.2.2.1⟩

/-! ## `sw.js` — the service worker's fetch routing and cache-first
strategy (C6)

A request is its method plus its parsed URL (origin, hostname,
pathname, and the full URL string used as the cache key).  The static
cache is an association list keyed by URL; the network's behaviour for
the one fetch `cacheFirst` may issue is `NetResult`. -/

structure SWRequest where
  method : String
  url : String
  origin : String
  hostname : String
  pathname : String

structure SWResponse where
  ok : Bool
  status : Nat
  statusText : String
deriving DecidableEq

/-- `new Response('Offline - Resource not available', \x7b status: 503,
statusText: 'Service Unavailable' \x7d)` (sw.js, lines 160–163). -/
def offlineResponse : SWResponse :=
  ⟨false, 503, "Service Unavailable"⟩

inductive NetResult where
  | resp (r : SWResponse)
  | netError
deriving DecidableEq

structure CacheFirstRun where
  response : SWResponse
  cache : List (String × SWResponse)
  networkContacted : Bool
deriving DecidableEq

/-- `cacheFirst` (sw.js, lines 141–165): serve a cache hit without
fetching; on a miss fetch, `cache.put` only an ok response, return the
network response; on a thrown fetch return the 503 offline response. -/
def cacheFirst (request : SWRequest) (cache : List (String × SWResponse))
    (net : NetResult) : CacheFirstRun :=
  match cache.lookup request.url with
  | some cachedResponse => ⟨cachedResponse, cache, false⟩
  | none =>
    match net with
    | .resp networkResponse =>
      ⟨networkResponse,
        if networkResponse.ok then jsSetKey cache request.url networkResponse else cache,
        true⟩
    | .netError => ⟨offlineResponse, cache, true⟩

def staticExtensions : List String :=
  ["css", "js", "png", "jpg", "jpeg", "gif", "svg", "ico", "woff", "woff2", "ttf"]

/-- `isStaticAsset` (sw.js, lines 248–251): the pathname matches
`\.(css|js|png|jpg|jpeg|gif|svg|ico|woff|woff2|ttf)$`. -/
def isStaticAsset (request : SWRequest) : Bool :=
  staticExtensions.any (fun ext => jsEndsWith request.pathname ("." ++ ext))

/-- `isDataRequest` (sw.js, lines 258–261). -/
def isDataRequest (request : SWRequest) : Bool :=
  jsIncludes request.pathname "/data/" || jsEndsWith request.pathname ".json"

/-- `isPhETRequest` (sw.js, lines 268–271). -/
def isPhETRequest (request : SWRequest) : Bool :=
  jsIncludes request.hostname "phet.colorado.edu"

inductive FetchStrategy where
  | browserDefault
  | useCacheFirst
  | useNetworkFirst
  | useNetworkOnly
  | useStaleWhileRevalidate
deriving DecidableEq

/-- The `fetch` event listener's routing (sw.js, lines 89–113):
non-GET and foreign non-PhET requests fall through to the browser;
static assets go cache-first, data requests network-first, PhET requests
network-only, everything else stale-while-revalidate. -/
def routeRequest (request : SWRequest) (locationOrigin : String) : FetchStrategy :=
  if request.method != "GET" then .browserDefault
  else if request.origin != locationOrigin &&
      !(jsIncludes request.hostname "phet.colorado.edu") then .browserDefault
  else if isStaticAsset request then .useCacheFirst
  else if isDataRequest request then .useNetworkFirst
  else if isPhETRequest request then .useNetworkOnly
  else .useStaleWhileRevalidate

/-- C6: every static-asset GET request (same-origin or PhET) is routed to
`cacheFirst`; `cacheFirst` returns a cache hit without contacting the
network and leaves the cache unchanged; on a miss it fetches and returns
the network response, storing it under the request URL only when it is
ok; and when the fetch throws it returns the 503 Service Unavailable
response instead of propagating the error. -/
theorem cacheFirst_spec (request : SWRequest) (cache : List (String × SWResponse))
    (net : NetResult) (locationOrigin : String) :
    (request.method = "GET" →
      (request.origin = locationOrigin ∨
        jsIncludes request.hostname "phet.colorado.edu" = true) →
      isStaticAsset request = true →
      routeRequest request locationOrigin = .useCacheFirst) ∧
    (∀ r, cache.lookup request.url = some r →
      cacheFirst request cache net = ⟨r, cache, false⟩) ∧
    (cache.lookup request.url = none →
      (∀ r, net = .resp r →
        (cacheFirst request cache net).response = r ∧
        (cacheFirst request cache net).networkContacted = true ∧
        (r.ok = true →
          ((cacheFirst request cache net).cache.lookup request.url = some r)) ∧
        (r.ok = false → (cacheFirst request cache net).cache = cache)) ∧
      (net = .netError →
        cacheFirst request cache net
          = ⟨⟨false, 503, "Service Unavailable"⟩, cache, true⟩)) := by
  refine ⟨?_, ?_, ?_⟩
  · intro hm ho hs
    unfold routeRequest
    have h1 : (request.method != "GET") = false := by simp [hm]
    have h2 : (request.origin != locationOrigin &&
        !(jsIncludes request.hostname "phet.colorado.edu")) = false := by
      rcases ho with ho | ho
      · simp [ho]
      · simp [ho]
    simp [h1, h2, hs]
  · intro r hr
    unfold cacheFirst
    rw [hr]
  · intro hmiss
    constructor
    · rintro r rfl
      unfold cacheFirst
      rw [hmiss]
      refine ⟨rfl, rfl, ?_, ?_⟩
      · intro hok
        simp [hok, jsSetKey_lookup_eq]
      · intro hnok
        simp [hnok]
    · rintro rfl
      unfold cacheFirst
      rw [hmiss]
      rfl

/-- Witness for C6: a same-origin GET for a stylesheet routes to
cache-first; on a cold cache with a dead network the result is the 503
offline response. -/
theorem cacheFirst_spec_witness :
    routeRequest ⟨"GET", "https://edulab.example/css/styles.css",
        "https://edulab.example", "edulab.example", "/css/styles.css"⟩
      "https://edulab.example" = .useCacheFirst ∧
    cacheFirst ⟨"GET", "https://edulab.example/css/styles.css",
        "https://edulab.example", "edulab.example", "/css/styles.css"⟩
      [] .netError = ⟨⟨false, 503, "Service Unavailable"⟩, [], true⟩ := by
  have h := cacheFirst_spec
    ⟨"GET", "https://edulab.example/css/styles.css",
      "https://edulab.example", "edulab.example", "/css/styles.css"⟩
    [] .netError "https://edulab.example"
  exact ⟨h.1 rfl (Or.inl rfl) (by decide), (h.2.2 rfl).2 rfl⟩

/-! ## `teacher-auth.js` — `TeacherAuth.isLoggedIn` (C7)

The stored session as the code sees it after `getItem`/`JSON.parse`:
absent, unparsable, or a record whose three fields may each be missing
(`undefined`).  `isLoggedIn` (teacher-auth.js, lines 27–63) reads
`sessionStorage` first and falls back to `localStorage` only when
`sessionStorage` has no entry; each failure path calls `clearSession`,
which removes the entry from both storages (lines 250–258). -/

inductive StoredSession where
  | absent
  | garbage
  | record (username : Option String) (loginTime : Option Int) (expiresAt : Option Int)
deriving DecidableEq

structure AuthCheck where
  loggedIn : Bool
  clearedSession : Bool
deriving DecidableEq

/-- The record `isLoggedIn` actually examines: `sessionStorage` first,
`localStorage` only as a fallback when `sessionStorage` has no entry. -/
def retrievedSession (ss ls : StoredSession) : StoredSession :=
  match ss with
  | .absent => ls
  | s => s

/-- `TeacherAuth.isLoggedIn`: truthiness checks on the three session
fields (a string field is falsy when missing or `''`, a numeric field
when missing or `0`), then the `Date.now() > expiresAt` expiry test;
`clearedSession` records whether `clearSession()` ran. -/
def isLoggedIn (ss ls : StoredSession) (now : Int) : AuthCheck :=
  match retrievedSession ss ls with
  | .absent => ⟨false, false⟩
  | .garbage => ⟨false, true⟩
  | .record username loginTime expiresAt =>
    if username.getD "" == "" || loginTime.getD 0 == 0 || expiresAt.getD 0 == 0 then
      ⟨false, true⟩
    else if now > expiresAt.getD 0 then ⟨false, true⟩
    else ⟨true, false⟩

/-- The claim's reading, modelled from the spec's words: "a session
record exists in sessionStorage or localStorage that parses as JSON, has
all three fields username, loginTime, and expiresAt, and whose expiresAt
is not in the past". -/
def claimSessionValid (s : StoredSession) (now : Int) : Bool :=
  match s with
  | .record (some _) (some _) (some expiresAt) => now ≤ expiresAt
  | _ => false

def claimLoggedIn (ss ls : StoredSession) (now : Int) : Bool :=
  claimSessionValid ss now || claimSessionValid ls now

/-- Counterexample for C7: with an unparsable record in sessionStorage
and a perfectly valid, unexpired record in localStorage, a valid session
record exists in "sessionStorage or localStorage", yet `isLoggedIn`
returns false (and clears both storages): the lookup never reaches
localStorage once sessionStorage holds any entry. -/
theorem isLoggedIn_exists_counterexample :
    claimLoggedIn .garbage (.record (some "teacher") (some 1000) (some 5000)) 2000 = true ∧
    (isLoggedIn .garbage (.record (some "teacher") (some 1000) (some 5000)) 2000).loggedIn
      = false ∧
    (isLoggedIn .garbage (.record (some "teacher") (some 1000) (some 5000)) 2000).clearedSession
      = true := by
  decide

/-- C7 (amended): `isLoggedIn` examines the sessionStorage record when
one exists, otherwise the localStorage record; it returns true iff that
retrieved record parses as JSON, has truthy username, loginTime and
expiresAt fields, and `Date.now() <= expiresAt`; and it clears the
session from both storages exactly when a record was retrieved but is
unparseable, malformed, or expired. -/
theorem isLoggedIn_spec (ss ls : StoredSession) (now : Int) :
    ((isLoggedIn ss ls now).loggedIn = true ↔
      (∃ username loginTime expiresAt,
        retrievedSession ss ls = .record (some username) (some loginTime) (some expiresAt) ∧
        username ≠ "" ∧ loginTime ≠ 0 ∧ expiresAt ≠ 0 ∧ now ≤ expiresAt)) ∧
    ((isLoggedIn ss ls now).clearedSession = true ↔
      (retrievedSession ss ls ≠ .absent ∧ (isLoggedIn ss ls now).loggedIn = false)) := by
  rcases hr : retrievedSession ss ls with _ | _ | ⟨username, loginTime, expiresAt⟩
  · have hiso : isLoggedIn ss ls now = ⟨false, false⟩ := by
      unfold isLoggedIn
      rw [hr]
    rw [hiso]
    simp
  · have hiso : isLoggedIn ss ls now = ⟨false, true⟩ := by
      unfold isLoggedIn
      rw [hr]
    rw [hiso]
    simp
  · have hiso : isLoggedIn ss ls now =
        (if username.getD "" == "" || loginTime.getD 0 == 0 || expiresAt.getD 0 == 0 then
          (⟨false, true⟩ : AuthCheck)
        else if now > expiresAt.getD 0 then ⟨false, true⟩
        else ⟨true, false⟩) := by
      unfold isLoggedIn
      rw [hr]
    rw [hiso]
    rcases username with _ | u <;> rcases loginTime with _ | lt <;>
      rcases expiresAt with _ | ea
    · simp
    · simp
    · simp
    · simp
    · simp
    · simp
    · simp
    · by_cases hu : u = "" <;> by_cases hlt : lt = 0 <;> by_cases hea : ea = 0 <;>
        by_cases hnow : now > ea <;>
          simp [hu, hlt, hea, hnow] <;>
            first
            | omega
            | exact ⟨u, lt, ea, ⟨rfl, rfl, rfl⟩, hu, hlt, hea, by omega⟩

/-- Witness for C7 (amended): a truthy unexpired record in
sessionStorage is accepted; the characterisation instantiated at a
concrete session and time. -/
theorem isLoggedIn_spec_witness :
    (isLoggedIn (.record (some "teacher") (some 1000) (some 5000)) .absent 2000).loggedIn
      = true ∧
    (isLoggedIn (.record (some "teacher") (some 1000) (some 5000)) .absent 2000).clearedSession
      = false := by
  have h := isLoggedIn_spec (.record (some "teacher") (some 1000) (some 5000)) .absent 2000
  have hl : (isLoggedIn (.record (some "teacher") (some 1000) (some 5000))
      .absent 2000).loggedIn = true :=
    h.1.mpr ⟨"teacher", 1000, 5000, rfl, by decide, by decide, by decide, by norm_num⟩
  refine ⟨hl, ?_⟩
  rcases hc : (isLoggedIn (.record (some "teacher") (some 1000) (some 5000))
      .absent 2000).clearedSession
  · rfl
  · exact absurd (h.2.mp hc).2 (by rw [hl]; simp)

/-! ## `simulation-manager.js` — `SimulationManager.addSimulation` (C8)

`addSimulation` (simulation-manager.js, lines 63–98) validates the
input, then builds

`\x7b id: custom-N, ...simulationData, isCustom: true, addedDate,
lastModified, accessCount: 0 \x7d`

— note the spread of `simulationData` comes *after* the generated `id`
and *before* the four bookkeeping fields.  The input object is an
association list of JSON values (a JavaScript object, so its keys are
unique); the object literal is embedded by folding property assignments
in evaluation order. -/

/-- Spread `\x7b ...base, ...extra \x7d`: copy `extra`'s properties onto
`base` in order. -/
def jsSpread (base extra : List (String × JSValue)) : List (String × JSValue) :=
  extra.foldl (fun acc kv => jsSetKey acc kv.1 kv.2) base

def validSubjects : List String :=
  ["physics", "chemistry", "biology", "mathematics"]

/-- `SimulationManager.validateSimulationData` (simulation-manager.js,
lines 488–530): required truthy fields, a parsable `phetUrl`, a
whitelisted subject, a non-empty `gradeLevel` array. -/
def validateSimulationData (data : List (String × JSValue)) : Bool :=
  (["title", "description", "subject", "gradeLevel", "phetUrl"].all
    (fun field => jsTruthyOpt (data.lookup field))) &&
  (match data.lookup "phetUrl" with
    | some (.strV s) => (parseUrl s).isSome
    | _ => false) &&
  (match data.lookup "subject" with
    | some (.strV s) => validSubjects.contains s
    | _ => false) &&
  (match data.lookup "gradeLevel" with
    | some (.arrV elems) => !elems.isEmpty
    | _ => false)

/-- The object literal of `addSimulation`: generated id, then the input
spread over it, then the four bookkeeping fields. -/
def addSimulationRecord (simulationData : List (String × JSValue)) (nextId : Nat)
    (nowIso : String) : List (String × JSValue) :=
  let base := jsSpread [("id", .strV ("custom-" ++ toString nextId))] simulationData
  let b1 := jsSetKey base "isCustom" (.boolV true)
  let b2 := jsSetKey b1 "addedDate" (.strV nowIso)
  let b3 := jsSetKey b2 "lastModified" (.strV nowIso)
  jsSetKey b3 "accessCount" (.numV 0)

/-- `SimulationManager.addSimulation`: validation failure throws;
otherwise the built record is pushed and persisted verbatim by
`saveToStorage` (lines 450–465, a plain `JSON.stringify` of the
collection). -/
def addSimulation (simulationData : List (String × JSValue)) (nextId : Nat)
    (nowIso : String) : Except String (List (String × JSValue)) :=
  if validateSimulationData simulationData then
    .ok (addSimulationRecord simulationData nextId nowIso)
  else .error "Missing required fields"

theorem jsSpread_lookup_not_mem (base extra : List (String × JSValue)) (k : String)
    (h : k ∉ extra.map Prod.fst) :
    (jsSpread base extra).lookup k = base.lookup k := by
  induction extra generalizing base with
  | nil => rfl
  | cons p rest ih =>
    have hk : k ∉ rest.map Prod.fst := by
      intro hmem
      exact h (List.mem_map.mpr (by
        rcases List.mem_map.mp hmem with ⟨q, hq, hqk⟩
        exact ⟨q, List.mem_cons_of_mem _ hq, hqk⟩))
    have hkp : k ≠ p.1 := by
      intro hkp
      exact h (by rw [hkp]; exact List.mem_map.mpr ⟨p, List.mem_cons_self _ _, rfl⟩)
    calc (jsSpread base (p :: rest)).lookup k
        = (jsSpread (jsSetKey base p.1 p.2) rest).lookup k := rfl
      _ = (jsSetKey base p.1 p.2).lookup k := ih _ hk
      _ = base.lookup k := jsSetKey_lookup_ne _ _ _ _ hkp

theorem jsSpread_lookup_mem (base extra : List (String × JSValue)) (k : String) (v : JSValue)
    (hnodup : (extra.map Prod.fst).Nodup) (hkv : (k, v) ∈ extra) :
    (jsSpread base extra).lookup k = some v := by
  induction extra generalizing base with
  | nil => simp at hkv
  | cons p rest ih =>
    rcases List.mem_cons.mp hkv with rfl | hmem
    · have hk : k ∉ rest.map Prod.fst := by
        have h' : (k :: rest.map Prod.fst).Nodup := by simpa using hnodup
        exact (List.nodup_cons.mp h').1
      calc (jsSpread base ((k, v) :: rest)).lookup k
          = (jsSpread (jsSetKey base k v) rest).lookup k := rfl
        _ = (jsSetKey base k v).lookup k := jsSpread_lookup_not_mem _ _ _ hk
        _ = some v := jsSetKey_lookup_eq _ _ _
    · have hrest : (rest.map Prod.fst).Nodup := by
        have h' : (p.1 :: rest.map Prod.fst).Nodup := by simpa using hnodup
        exact List.Nodup.of_cons h'
      exact ih _ hrest hmem

theorem lookup_mem_ne_none {α : Type} (l : List (String × α)) (v : α) {k : String}
    (h : (k, v) ∈ l) : l.lookup k ≠ none := by
  induction l with
  | nil => simp at h
  | cons p rest ih =>
    rcases List.mem_cons.mp h with rfl | hmem
    · simp [List.lookup]
    · by_cases hk : k = p.1
      · simp [List.lookup, hk]
      · have h2 : (k == p.1) = false := beq_eq_false_iff_ne.mpr hk
        simpa [List.lookup, h2] using ih hmem

def bookkeepingFields : List String :=
  ["isCustom", "addedDate", "lastModified", "accessCount"]

/-- Counterexample for C8: a valid input that supplies its own `id`.
Because `...simulationData` is spread after the generated `id`, the
supplied `id` wins: the persisted record's `id` is `"my-id"`, not the
system-generated `"custom-1"`, so the system does not replace a supplied
id. -/
theorem addSimulation_id_counterexample :
    addSimulation
        [("id", .strV "my-id"), ("title", .strV "T"), ("description", .strV "D"),
         ("subject", .strV "physics"), ("gradeLevel", .arrV [.strV "6"]),
         ("phetUrl", .strV "https://phet.colorado.edu/sims/html/x/latest/x.html")]
        1 "2024-01-01T00:00:00.000Z"
      = .ok
        [("id", .strV "my-id"), ("title", .strV "T"), ("description", .strV "D"),
         ("subject", .strV "physics"), ("gradeLevel", .arrV [.strV "6"]),
         ("phetUrl", .strV "https://phet.colorado.edu/sims/html/x/latest/x.html"),
         ("isCustom", .boolV true), ("addedDate", .strV "2024-01-01T00:00:00.000Z"),
         ("lastModified", .strV "2024-01-01T00:00:00.000Z"), ("accessCount", .numV 0)] ∧
    ("my-id" : String) ≠ "custom-1" := by
  constructor
  · rfl
  · decide

/-- C8 (amended): for every accepted input, every input field other than
the four bookkeeping fields is persisted verbatim — including a supplied
`id`, which overrides the generated one; the generated `custom-N` id is
used only when the input has no `id`; and the bookkeeping fields
`isCustom`, `addedDate`, `lastModified`, `accessCount` are set by the
system; no input field is dropped. -/
theorem addSimulation_persists_fields (simulationData : List (String × JSValue))
    (nextId : Nat) (nowIso : String) (r : List (String × JSValue))
    (hnodup : (simulationData.map Prod.fst).Nodup)
    (h : addSimulation simulationData nextId nowIso = .ok r) :
    (∀ k v, (k, v) ∈ simulationData → k ∉ bookkeepingFields → r.lookup k = some v) ∧
    r.lookup "isCustom" = some (.boolV true) ∧
    r.lookup "addedDate" = some (.strV nowIso) ∧
    r.lookup "lastModified" = some (.strV nowIso) ∧
    r.lookup "accessCount" = some (.numV 0) ∧
    (simulationData.lookup "id" = none →
      r.lookup "id" = some (.strV ("custom-" ++ toString nextId))) := by
  have hr : r = addSimulationRecord simulationData nextId nowIso := by
    unfold addSimulation at h
    by_cases hv : validateSimulationData simulationData
    · rw [if_pos hv] at h
      injection h with h'
      exact h'.symm
    · rw [if_neg hv] at h
      exact absurd h (by simp)
  subst hr
  unfold addSimulationRecord
  refine ⟨?_, ?_, ?_, ?_, ?_, ?_⟩
  · intro k v hkv hknot
    have h1 : k ≠ "isCustom" := fun hk => hknot (hk ▸ by decide)
    have h2 : k ≠ "addedDate" := fun hk => hknot (hk ▸ by decide)
    have h3 : k ≠ "lastModified" := fun hk => hknot (hk ▸ by decide)
    have h4 : k ≠ "accessCount" := fun hk => hknot (hk ▸ by decide)
    rw [jsSetKey_lookup_ne _ _ _ _ h4, jsSetKey_lookup_ne _ _ _ _ h3,
      jsSetKey_lookup_ne _ _ _ _ h2, jsSetKey_lookup_ne _ _ _ _ h1]
    exact jsSpread_lookup_mem _ _ _ _ hnodup hkv
  · rw [jsSetKey_lookup_ne _ _ _ _ (by decide), jsSetKey_lookup_ne _ _ _ _ (by decide),
      jsSetKey_lookup_ne _ _ _ _ (by decide)]
    exact jsSetKey_lookup_eq _ _ _
  · rw [jsSetKey_lookup_ne _ _ _ _ (by decide), jsSetKey_lookup_ne _ _ _ _ (by decide)]
    exact jsSetKey_lookup_eq _ _ _
  · rw [jsSetKey_lookup_ne _ _ _ _ (by decide)]
    exact jsSetKey_lookup_eq _ _ _
  · exact jsSetKey_lookup_eq _ _ _
  · intro hid
    have hnotmem : "id" ∉ simulationData.map Prod.fst := by
      intro hmem
      rcases List.mem_map.mp hmem with ⟨⟨k, v⟩, hkv, hk⟩
      have : simulationData.lookup "id" ≠ none := by
        cases hk
        exact lookup_mem_ne_none simulationData v hkv
      exact this hid
    rw [jsSetKey_lookup_ne _ _ _ _ (by decide), jsSetKey_lookup_ne _ _ _ _ (by decide),
      jsSetKey_lookup_ne _ _ _ _ (by decide), jsSetKey_lookup_ne _ _ _ _ (by decide),
      jsSpread_lookup_not_mem _ _ _ hnotmem]
    rfl

/-- Witness for C8 (amended): a concrete accepted input without an `id`
gets the generated id and keeps its `title` verbatim. -/
theorem addSimulation_persists_fields_witness :
    (addSimulationRecord
        [("title", .strV "T"), ("description", .strV "D"),
         ("subject", .strV "physics"), ("gradeLevel", .arrV [.strV "6"]),
         ("phetUrl", .strV "https://phet.colorado.edu/sims/html/x/latest/x.html")]
        1 "2024-01-01T00:00:00.000Z").lookup "id" = some (.strV "custom-1") ∧
    (addSimulationRecord
        [("title", .strV "T"), ("description", .strV "D"),
         ("subject", .strV "physics"), ("gradeLevel", .arrV [.strV "6"]),
         ("phetUrl", .strV "https://phet.colorado.edu/sims/html/x/latest/x.html")]
        1 "2024-01-01T00:00:00.000Z").lookup "title" = some (.strV "T") := by
  have h := addSimulation_persists_fields
    [("title", .strV "T"), ("description", .strV "D"),
     ("subject", .strV "physics"), ("gradeLevel", .arrV [.strV "6"]),
     ("phetUrl", .strV "https://phet.colorado.edu/sims/html/x/latest/x.html")]
    1 "2024-01-01T00:00:00.000Z"
    (addSimulationRecord
      [("title", .strV "T"), ("description", .strV "D"),
       ("subject", .strV "physics"), ("gradeLevel", .arrV [.strV "6"]),
       ("phetUrl", .strV "https://phet.colorado.edu/sims/html/x/latest/x.html")]
      1 "2024-01-01T00:00:00.000Z")
    (by decide) (by rfl)
  refine ⟨?_, ?_⟩
  · have := h.2.2.2.2.2 rfl
    simpa using this
  · exact h.1 "title" (.strV "T") (by simp) (by decide)

end Edulab
